import Mathlib

/-!
# Verification of `find-key-3rd.js`

Shallow embedding of the checksum-verification utility in
`src/find-key-3rd.js`, together with proofs of the specified properties.

The program reads a two-column file of `name,checksum` lines, extracts the
second column as a list of tokens (`parseChecksumFile`, source lines
145-168), and then runs a sequential loop (`main`, source lines 19-98):
for each token it submits the token to a remote service twice
(`submitChecksum`), classifies the pair of responses, appends the token to
an append-only failure log (`failed.txt`) when a submission fails, and
stops at the first token whose two responses both carry equal truthy `key`
fields.

Modelling choices:
* The remote client `submitChecksum` (source lines 112-138) is I/O; the
  loop only observes its return value, which is either a parsed JSON
  object or `null` on any transport/status failure.  It is embedded as a
  responder function `f : String → Nat → Option LookupResult` giving, for
  each token, the result of attempt 1 and attempt 2 (`none` = failure,
  mirroring the `null` return).  The `console.error` diagnostic emitted by
  `submitChecksum` on each failed attempt is recorded in an `errLog`
  trace.
* A successful response is a JSON object; the loop reads only its `key`
  property (line 73).  `LookupResult` therefore carries the `key` property
  as an `Option JsVal` (`none` = property absent/undefined) plus an
  uninterpreted `extra` string standing for all other fields, which are
  passed through opaquely for display.  `JsVal` covers the JSON scalar
  values; composite values (objects/arrays) are omitted because two
  separately parsed composites are never `===`-equal in JavaScript, so
  they can never produce a match and behave like unequal scalars.
* Every call made to the client is recorded in a `calls` trace as
  `(position in the token list, token, attempt number)`.
* The failure stream `failedStream` is created at source line 25 (before
  the input file is parsed) with append flags, which opens/creates
  `failed.txt`; this is recorded by the `sinkOpened` flag.  Writes to it
  (lines 56 and 66) are collected in the `sink` list, and each
  `failedStream.end()` call (lines 82 and 95) increments `sinkCloses`.
* `parseChecksumFile` rejects when the input file does not exist (lines
  147-149) and main's `.catch` (lines 186-188) prints the error; the parse
  outcome is passed to the embedded `main` as an
  `Except String (List String)`.
-/

/-- A JSON scalar value, as far as the loop's `key` comparison is
concerned.  JavaScript numbers are modelled as integers: the program never
computes with them, it only tests truthiness and `===`-equality. -/
inductive JsVal : Type
  | vNull : JsVal
  | vBool : Bool → JsVal
  | vNum : Int → JsVal
  | vStr : String → JsVal
deriving DecidableEq, Repr

/-- One successful response of `submitChecksum`: the `key` property
(`none` when absent) and the remaining fields, uninterpreted. -/
structure LookupResult where
  key : Option JsVal
  extra : String
deriving DecidableEq, Repr

/-- JavaScript truthiness of the value of a property read such as
`response.key`: `undefined` (absent), `null`, `false`, `0` and `""` are
falsy, everything else is truthy. -/
def jsTruthy : Option JsVal → Bool
  | none => false
  | some .vNull => false
  | some (.vBool b) => b
  | some (.vNum n) => n != 0
  | some (.vStr s) => s != ""

/-- JavaScript strict equality `===` on the (scalar) values compared at
source line 73: equal exactly when of the same type with the same value;
`undefined === undefined` holds. -/
def jsStrictEq (a b : Option JsVal) : Bool :=
  a = b

/-- The match test of source line 73:
`response1.key && response2.key && response1.key === response2.key`. -/
def isMatch (r1 r2 : LookupResult) : Bool :=
  jsTruthy r1.key && jsTruthy r2.key && jsStrictEq r1.key r2.key

/-- The per-token classification of a pair of submission outcomes
(spec §3 `MatchDecision`): a failed submission (lines 54, 64) is a
transient failure; otherwise line 73 decides match vs. no-match. -/
inductive MatchDecision : Type
  | transientFailure : MatchDecision
  | noMatch : MatchDecision
  | matchHit : MatchDecision
deriving DecidableEq, Repr

/-- The decision computed for a pair of lookup outcomes (`none` = the
submission failed): mirrors the control flow of source lines 54, 64, 73. -/
def decideMatch (o1 o2 : Option LookupResult) : MatchDecision :=
  match o1 with
  | none => .transientFailure
  | some r1 =>
    match o2 with
    | none => .transientFailure
    | some r2 => if isMatch r1 r2 then .matchHit else .noMatch

/-- JavaScript `line.split(",")` on the character list of the line:
split at every comma character.  The empty list maps to `[[]]`, matching
JS `"".split(",") === [""]`. -/
def splitCommaChars : List Char → List (List Char)
  | [] => [[]]
  | c :: cs =>
    if c = ',' then [] :: splitCommaChars cs
    else
      match splitCommaChars cs with
      | [] => [[c]]
      | p :: ps => (c :: p) :: ps

/-- JavaScript `line.split(",")` (source line 158). -/
def jsSplitComma (line : String) : List String :=
  (splitCommaChars line.data).map String.mk

/-- JavaScript `String.prototype.trim` (source line 161): remove leading
and trailing whitespace.  (Restricted to ASCII whitespace — space, tab,
CR, LF — which is all a two-column checksum report contains; JS also
trims a few exotic Unicode spaces.) -/
def jsTrim (s : String) : String :=
  ⟨((s.data.dropWhile Char.isWhitespace).reverse.dropWhile
      Char.isWhitespace).reverse⟩

/-- The tokens contributed by a single input line (the body of the
`rl.on("line", ...)` handler, source lines 157-163): split on `","`; if
there are exactly two parts and the second is non-empty (JavaScript
truthiness of `parts[1]`), push the trimmed second part. -/
def lineTokens (line : String) : List String :=
  let parts := jsSplitComma line
  if parts.length = 2 && parts[1]! != "" then [jsTrim parts[1]!] else []

/-- `parseChecksumFile`, source lines 145-168, applied to the list of
lines of the input file (the `readline` interface with
`crlfDelay: Infinity` delivers lines without their LF/CRLF terminators):
each line's handler pushes onto the accumulated `checksums` array. -/
def parseChecksumFile (lines : List String) : List String :=
  lines.foldl
    (fun acc line =>
      let parts := jsSplitComma line
      if parts.length = 2 && parts[1]! != "" then acc ++ [jsTrim parts[1]!]
      else acc)
    []

/-- The parsing rule as the specification states it (spec §4.1/§8.1), for
comparison with `lineTokens`: a line qualifies only if splitting on the
comma gives exactly two non-empty parts, with the second field non-empty
after trimming surrounding whitespace; a qualifying line contributes its
trimmed second field. -/
def lineTokensSpec (line : String) : List String :=
  let parts := jsSplitComma line
  if parts.length = 2 && parts[0]! != "" && (jsTrim parts[1]!) != "" then
    [jsTrim parts[1]!]
  else []

/-- The match condition as the claim states it: both submissions
succeeded, both results carry a non-empty *string* `key`, and the two
keys are equal as strings. -/
def specMatchClaim (o1 o2 : Option LookupResult) : Prop :=
  ∃ r1 r2, o1 = some r1 ∧ o2 = some r2 ∧
    ∃ s1 s2 : String, r1.key = some (.vStr s1) ∧ r2.key = some (.vStr s2) ∧
      s1 ≠ "" ∧ s2 ≠ "" ∧ s1 = s2

/-- How the verification loop ended (spec §4.3 `Outcome`): a match at a
given position in the token list, carrying the token and the first
lookup's response (`result1`, printed at source line 80), or exhaustion
of the sequence. -/
inductive LoopOutcome : Type
  | matchFound (pos : Nat) (t : String) (r1 : LookupResult) : LoopOutcome
  | exhausted : LoopOutcome
deriving DecidableEq, Repr

/-- Observable trace of one run of the `for` loop of source lines 49-89:
the outcome, the final `processedCount`, the lines written to the failure
stream (`sink`), every client invocation `(position, token, attempt)` in
order (`calls`), and the diagnostic lines `submitChecksum` printed, one
per failed attempt (`errLog`). -/
structure LoopRes where
  outcome : LoopOutcome
  processed : Nat
  sink : List String
  calls : List (Nat × String × Nat)
  errLog : List (Nat × String × Nat)
deriving DecidableEq, Repr

/-- The `for` loop of source lines 49-89 over the remaining tokens,
`pos` being the position of the first of them in the full list.
Branches, in source order: first submission fails (lines 54-60: log to
sink, count, continue — the second submission is not made); second
submission fails (lines 64-70: log to sink, count, continue); line 73
match (lines 74-83: report and stop at once — `processedCount` is not
incremented); otherwise no-match (lines 85-88: count, continue). -/
def runLoop (f : String → Nat → Option LookupResult) :
    List String → Nat → LoopRes
  | [], _ => ⟨.exhausted, 0, [], [], []⟩
  | t :: rest, pos =>
    match f t 1 with
    | none =>
      let r := runLoop f rest (pos + 1)
      ⟨r.outcome, r.processed + 1, t :: r.sink,
        (pos, t, 1) :: r.calls, (pos, t, 1) :: r.errLog⟩
    | some r1 =>
      match f t 2 with
      | none =>
        let r := runLoop f rest (pos + 1)
        ⟨r.outcome, r.processed + 1, t :: r.sink,
          (pos, t, 1) :: (pos, t, 2) :: r.calls, (pos, t, 2) :: r.errLog⟩
      | some r2 =>
        if isMatch r1 r2 then
          ⟨.matchFound pos t r1, 0, [], [(pos, t, 1), (pos, t, 2)], []⟩
        else
          let r := runLoop f rest (pos + 1)
          ⟨r.outcome, r.processed + 1, r.sink,
            (pos, t, 1) :: (pos, t, 2) :: r.calls, r.errLog⟩

/-- How `main` ended: fatal error caught at source lines 186-188, the
"No checksums found" early return of lines 36-39, the match report of
lines 74-83, or the exhaustion report of lines 91-97. -/
inductive MainOutcome : Type
  | fatalError (msg : String) : MainOutcome
  | noChecksums : MainOutcome
  | matched (pos : Nat) (t : String) (r1 : LookupResult) : MainOutcome
  | exhausted : MainOutcome
deriving DecidableEq, Repr

/-- Observable trace of one run of `main` (source lines 19-98): outcome,
final `processedCount`, failure-sink writes, client invocations,
per-attempt diagnostics, whether the failure stream was opened
(`fs.createWriteStream` at line 25), and how many times it was ended
(lines 82, 95). -/
structure MainRes where
  outcome : MainOutcome
  processed : Nat
  sink : List String
  calls : List (Nat × String × Nat)
  errLog : List (Nat × String × Nat)
  sinkOpened : Bool
  sinkCloses : Nat
deriving DecidableEq, Repr

/-- `main`, source lines 19-98, as a function of the result of
`parseChecksumFile` (`Except.error` = the promise rejected, e.g. the
`File not found` rejection of lines 147-149) and of the responder `f`.
The failure stream is created at line 25, before parsing, so
`sinkOpened = true` on every path; it is ended exactly once on the match
path (line 82) and the exhaustion path (line 95), and never on the fatal
path (the `.catch` at lines 186-188 only prints) nor on the
zero-checksums early return of lines 36-39. -/
def runMain (parseResult : Except String (List String))
    (f : String → Nat → Option LookupResult) : MainRes :=
  match parseResult with
  | .error e => ⟨.fatalError e, 0, [], [], [], true, 0⟩
  | .ok checksums =>
    if checksums.length = 0 then ⟨.noChecksums, 0, [], [], [], true, 0⟩
    else
      let r := runLoop f checksums 0
      match r.outcome with
      | .matchFound pos t r1 =>
        ⟨.matched pos t r1, r.processed, r.sink, r.calls, r.errLog, true, 1⟩
      | .exhausted =>
        ⟨.exhausted, r.processed, r.sink, r.calls, r.errLog, true, 1⟩

/-- A token's iteration ends in the line-73 match exactly when both
attempts succeed and their results satisfy `isMatch`. -/
def matchesF (f : String → Nat → Option LookupResult) (t : String) : Bool :=
  match f t 1, f t 2 with
  | some r1, some r2 => isMatch r1 r2
  | _, _ => false

/-- A token's iteration writes to the failure sink exactly when the first
attempt fails, or the first succeeds and the second fails; since the
second attempt is only made after a successful first one, this is: some
attempt among those the code would consult fails. -/
def failsF (f : String → Nat → Option LookupResult) (t : String) : Bool :=
  (f t 1).isNone || (f t 2).isNone

/-- The tokens the loop actually iterates over without stopping: the
longest prefix of non-matching tokens. -/
def procPrefix (f : String → Nat → Option LookupResult)
    (tokens : List String) : List String :=
  tokens.takeWhile (fun t => !matchesF f t)

/-! ## Equation lemmas for the four branches of the loop body -/

lemma runLoop_nil (f : String → Nat → Option LookupResult) (pos : Nat) :
    runLoop f [] pos = ⟨.exhausted, 0, [], [], []⟩ := rfl

lemma runLoop_cons_fail1 (f : String → Nat → Option LookupResult)
    (t : String) (rest : List String) (pos : Nat) (h1 : f t 1 = none) :
    runLoop f (t :: rest) pos =
      ⟨(runLoop f rest (pos + 1)).outcome,
        (runLoop f rest (pos + 1)).processed + 1,
        t :: (runLoop f rest (pos + 1)).sink,
        (pos, t, 1) :: (runLoop f rest (pos + 1)).calls,
        (pos, t, 1) :: (runLoop f rest (pos + 1)).errLog⟩ := by
  simp [runLoop, h1]

lemma runLoop_cons_fail2 (f : String → Nat → Option LookupResult)
    (t : String) (rest : List String) (pos : Nat) (r1 : LookupResult)
    (h1 : f t 1 = some r1) (h2 : f t 2 = none) :
    runLoop f (t :: rest) pos =
      ⟨(runLoop f rest (pos + 1)).outcome,
        (runLoop f rest (pos + 1)).processed + 1,
        t :: (runLoop f rest (pos + 1)).sink,
        (pos, t, 1) :: (pos, t, 2) :: (runLoop f rest (pos + 1)).calls,
        (pos, t, 2) :: (runLoop f rest (pos + 1)).errLog⟩ := by
  simp [runLoop, h1, h2]

lemma runLoop_cons_match (f : String → Nat → Option LookupResult)
    (t : String) (rest : List String) (pos : Nat) (r1 r2 : LookupResult)
    (h1 : f t 1 = some r1) (h2 : f t 2 = some r2)
    (hm : isMatch r1 r2 = true) :
    runLoop f (t :: rest) pos =
      ⟨.matchFound pos t r1, 0, [], [(pos, t, 1), (pos, t, 2)], []⟩ := by
  simp [runLoop, h1, h2, hm]

lemma runLoop_cons_nomatch (f : String → Nat → Option LookupResult)
    (t : String) (rest : List String) (pos : Nat) (r1 r2 : LookupResult)
    (h1 : f t 1 = some r1) (h2 : f t 2 = some r2)
    (hm : isMatch r1 r2 = false) :
    runLoop f (t :: rest) pos =
      ⟨(runLoop f rest (pos + 1)).outcome,
        (runLoop f rest (pos + 1)).processed + 1,
        (runLoop f rest (pos + 1)).sink,
        (pos, t, 1) :: (pos, t, 2) :: (runLoop f rest (pos + 1)).calls,
        (runLoop f rest (pos + 1)).errLog⟩ := by
  simp [runLoop, h1, h2, hm]

lemma matchesF_of_fail1 (f : String → Nat → Option LookupResult)
    (t : String) (h1 : f t 1 = none) : matchesF f t = false := by
  simp [matchesF, h1]

lemma matchesF_of_fail2 (f : String → Nat → Option LookupResult)
    (t : String) (r1 : LookupResult) (h1 : f t 1 = some r1)
    (h2 : f t 2 = none) : matchesF f t = false := by
  simp [matchesF, h1, h2]

lemma matchesF_of_results (f : String → Nat → Option LookupResult)
    (t : String) (r1 r2 : LookupResult) (h1 : f t 1 = some r1)
    (h2 : f t 2 = some r2) : matchesF f t = isMatch r1 r2 := by
  simp [matchesF, h1, h2]

lemma procPrefix_nil (f : String → Nat → Option LookupResult) :
    procPrefix f [] = [] := rfl

lemma procPrefix_cons_pos (f : String → Nat → Option LookupResult)
    (t : String) (rest : List String) (hm : matchesF f t = false) :
    procPrefix f (t :: rest) = t :: procPrefix f rest := by
  simp [procPrefix, List.takeWhile_cons, hm]

lemma procPrefix_cons_neg (f : String → Nat → Option LookupResult)
    (t : String) (rest : List String) (hm : matchesF f t = true) :
    procPrefix f (t :: rest) = [] := by
  simp [procPrefix, List.takeWhile_cons, hm]

/-! ## Characterizations of the loop trace -/

/-- The final `processedCount` equals the number of tokens iterated over
without the loop stopping. -/
lemma loop_processed (f : String → Nat → Option LookupResult)
    (tokens : List String) (pos : Nat) :
    (runLoop f tokens pos).processed = (procPrefix f tokens).length := by
  induction tokens generalizing pos with
  | nil => simp [runLoop_nil, procPrefix_nil]
  | cons t rest ih =>
    cases h1 : f t 1 with
    | none =>
      rw [runLoop_cons_fail1 f t rest pos h1,
        procPrefix_cons_pos f t rest (matchesF_of_fail1 f t h1)]
      simp [ih]
    | some r1 =>
      cases h2 : f t 2 with
      | none =>
        rw [runLoop_cons_fail2 f t rest pos r1 h1 h2,
          procPrefix_cons_pos f t rest (matchesF_of_fail2 f t r1 h1 h2)]
        simp [ih]
      | some r2 =>
        cases hm : isMatch r1 r2 with
        | false =>
          rw [runLoop_cons_nomatch f t rest pos r1 r2 h1 h2 hm,
            procPrefix_cons_pos f t rest
              ((matchesF_of_results f t r1 r2 h1 h2).trans hm)]
          simp [ih]
        | true =>
          rw [runLoop_cons_match f t rest pos r1 r2 h1 h2 hm,
            procPrefix_cons_neg f t rest
              ((matchesF_of_results f t r1 r2 h1 h2).trans hm)]
          rfl

/-- The failure sink receives exactly the iterated-over tokens whose
consulted attempts include a failure, in order and with multiplicity. -/
lemma loop_sink (f : String → Nat → Option LookupResult)
    (tokens : List String) (pos : Nat) :
    (runLoop f tokens pos).sink = (procPrefix f tokens).filter (failsF f) := by
  induction tokens generalizing pos with
  | nil => simp [runLoop_nil, procPrefix_nil]
  | cons t rest ih =>
    cases h1 : f t 1 with
    | none =>
      rw [runLoop_cons_fail1 f t rest pos h1,
        procPrefix_cons_pos f t rest (matchesF_of_fail1 f t h1)]
      have hf : failsF f t = true := by simp [failsF, h1]
      simp [List.filter_cons, hf, ih]
    | some r1 =>
      cases h2 : f t 2 with
      | none =>
        rw [runLoop_cons_fail2 f t rest pos r1 h1 h2,
          procPrefix_cons_pos f t rest (matchesF_of_fail2 f t r1 h1 h2)]
        have hf : failsF f t = true := by simp [failsF, h2]
        simp [List.filter_cons, hf, ih]
      | some r2 =>
        cases hm : isMatch r1 r2 with
        | false =>
          rw [runLoop_cons_nomatch f t rest pos r1 r2 h1 h2 hm,
            procPrefix_cons_pos f t rest
              ((matchesF_of_results f t r1 r2 h1 h2).trans hm)]
          have hf : failsF f t = false := by simp [failsF, h1, h2]
          simp [List.filter_cons, hf, ih]
        | true =>
          rw [runLoop_cons_match f t rest pos r1 r2 h1 h2 hm,
            procPrefix_cons_neg f t rest
              ((matchesF_of_results f t r1 r2 h1 h2).trans hm)]
          simp

/-- The diagnostic log is the per-attempt restriction of the call trace
to the failed attempts: one line per failed attempt, in order. -/
lemma loop_errLog (f : String → Nat → Option LookupResult)
    (tokens : List String) (pos : Nat) :
    (runLoop f tokens pos).errLog =
      (runLoop f tokens pos).calls.filter (fun c => (f c.2.1 c.2.2).isNone) := by
  induction tokens generalizing pos with
  | nil => simp [runLoop_nil]
  | cons t rest ih =>
    cases h1 : f t 1 with
    | none =>
      rw [runLoop_cons_fail1 f t rest pos h1]
      simp [List.filter_cons, h1, ih]
    | some r1 =>
      cases h2 : f t 2 with
      | none =>
        rw [runLoop_cons_fail2 f t rest pos r1 h1 h2]
        simp [List.filter_cons, h1, h2, ih]
      | some r2 =>
        cases hm : isMatch r1 r2 with
        | false =>
          rw [runLoop_cons_nomatch f t rest pos r1 r2 h1 h2 hm]
          simp [List.filter_cons, h1, h2, ih]
        | true =>
          rw [runLoop_cons_match f t rest pos r1 r2 h1 h2 hm]
          simp [List.filter_cons, h1, h2]

/-- Every recorded call concerns a position at or after the loop's
starting position. -/
lemma loop_calls_ge (f : String → Nat → Option LookupResult)
    (tokens : List String) : ∀ (pos p a : Nat) (u : String),
    (p, u, a) ∈ (runLoop f tokens pos).calls → pos ≤ p := by
  induction tokens with
  | nil => intro pos p a u h; simp [runLoop_nil] at h
  | cons t rest ih =>
    intro pos p a u h
    cases h1 : f t 1 with
    | none =>
      rw [runLoop_cons_fail1 f t rest pos h1] at h
      simp only [List.mem_cons, Prod.mk.injEq] at h
      rcases h with ⟨hq, _⟩ | h
      · omega
      · exact le_trans (Nat.le_succ pos) (ih (pos + 1) p a u h)
    | some r1 =>
      cases h2 : f t 2 with
      | none =>
        rw [runLoop_cons_fail2 f t rest pos r1 h1 h2] at h
        simp only [List.mem_cons, Prod.mk.injEq] at h
        rcases h with ⟨hq, _⟩ | ⟨hq, _⟩ | h
        · omega
        · omega
        · exact le_trans (Nat.le_succ pos) (ih (pos + 1) p a u h)
      | some r2 =>
        cases hm : isMatch r1 r2 with
        | true =>
          rw [runLoop_cons_match f t rest pos r1 r2 h1 h2 hm] at h
          simp only [List.mem_cons, List.not_mem_nil, or_false,
            Prod.mk.injEq] at h
          rcases h with ⟨hq, _⟩ | ⟨hq, _⟩ <;> omega
        | false =>
          rw [runLoop_cons_nomatch f t rest pos r1 r2 h1 h2 hm] at h
          simp only [List.mem_cons, Prod.mk.injEq] at h
          rcases h with ⟨hq, _⟩ | ⟨hq, _⟩ | h
          · omega
          · omega
          · exact le_trans (Nat.le_succ pos) (ih (pos + 1) p a u h)

/-- A second attempt is only ever made for a token whose first attempt
succeeded (the `continue` at source line 59 skips line 62). -/
lemma loop_att2 (f : String → Nat → Option LookupResult)
    (tokens : List String) : ∀ (pos q : Nat) (u : String),
    (q, u, 2) ∈ (runLoop f tokens pos).calls → (f u 1).isSome = true := by
  induction tokens with
  | nil => intro pos q u h; simp [runLoop_nil] at h
  | cons t rest ih =>
    intro pos q u h
    cases h1 : f t 1 with
    | none =>
      rw [runLoop_cons_fail1 f t rest pos h1] at h
      simp only [List.mem_cons, Prod.mk.injEq] at h
      rcases h with ⟨_, _, hbad⟩ | h
      · omega
      · exact ih (pos + 1) q u h
    | some r1 =>
      cases h2 : f t 2 with
      | none =>
        rw [runLoop_cons_fail2 f t rest pos r1 h1 h2] at h
        simp only [List.mem_cons, Prod.mk.injEq] at h
        rcases h with ⟨_, _, hbad⟩ | ⟨_, hu, _⟩ | h
        · omega
        · subst hu; simp [h1]
        · exact ih (pos + 1) q u h
      | some r2 =>
        cases hm : isMatch r1 r2 with
        | true =>
          rw [runLoop_cons_match f t rest pos r1 r2 h1 h2 hm] at h
          simp only [List.mem_cons, List.not_mem_nil, or_false,
            Prod.mk.injEq] at h
          rcases h with ⟨_, _, hbad⟩ | ⟨_, hu, _⟩
          · omega
          · subst hu; simp [h1]
        | false =>
          rw [runLoop_cons_nomatch f t rest pos r1 r2 h1 h2 hm] at h
          simp only [List.mem_cons, Prod.mk.injEq] at h
          rcases h with ⟨_, _, hbad⟩ | ⟨_, hu, _⟩ | h
          · omega
          · subst hu; simp [h1]
          · exact ih (pos + 1) q u h

/-- Any token one of whose recorded attempts failed was written to the
failure sink (source lines 56 and 66). -/
lemma loop_fail_mem_sink (f : String → Nat → Option LookupResult)
    (tokens : List String) : ∀ (pos q a : Nat) (u : String),
    (q, u, a) ∈ (runLoop f tokens pos).calls → f u a = none →
    u ∈ (runLoop f tokens pos).sink := by
  induction tokens with
  | nil => intro pos q a u h hf; simp [runLoop_nil] at h
  | cons t rest ih =>
    intro pos q a u h hf
    cases h1 : f t 1 with
    | none =>
      rw [runLoop_cons_fail1 f t rest pos h1] at h ⊢
      simp only [List.mem_cons, Prod.mk.injEq] at h ⊢
      rcases h with ⟨_, hu, _⟩ | h
      · exact Or.inl hu
      · exact Or.inr (ih (pos + 1) q a u h hf)
    | some r1 =>
      cases h2 : f t 2 with
      | none =>
        rw [runLoop_cons_fail2 f t rest pos r1 h1 h2] at h ⊢
        simp only [List.mem_cons, Prod.mk.injEq] at h ⊢
        rcases h with ⟨_, hu, ha⟩ | ⟨_, hu, ha⟩ | h
        · exact Or.inl hu
        · exact Or.inl hu
        · exact Or.inr (ih (pos + 1) q a u h hf)
      | some r2 =>
        cases hm : isMatch r1 r2 with
        | true =>
          rw [runLoop_cons_match f t rest pos r1 r2 h1 h2 hm] at h ⊢
          simp only [List.mem_cons, List.not_mem_nil, or_false,
            Prod.mk.injEq] at h
          rcases h with ⟨_, hu, ha⟩ | ⟨_, hu, ha⟩
          · subst hu; subst ha; rw [hf] at h1; cases h1
          · subst hu; subst ha; rw [hf] at h2; cases h2
        | false =>
          rw [runLoop_cons_nomatch f t rest pos r1 r2 h1 h2 hm] at h ⊢
          simp only [List.mem_cons, Prod.mk.injEq] at h
          rcases h with ⟨_, hu, ha⟩ | ⟨_, hu, ha⟩ | h
          · subst hu; subst ha; rw [hf] at h1; cases h1
          · subst hu; subst ha; rw [hf] at h2; cases h2
          · exact ih (pos + 1) q a u h hf

/-- If the loop stopped with a match at position `q`, then `q` indexes the
matched token in the remaining list, the first attempt's response is the
one carried by the outcome, and both attempts succeeded with
`isMatch`-related results. -/
lemma loop_match_sound (f : String → Nat → Option LookupResult)
    (tokens : List String) : ∀ (pos q : Nat) (t : String) (r1 : LookupResult),
    (runLoop f tokens pos).outcome = .matchFound q t r1 →
    ∃ i, q = pos + i ∧ tokens[i]? = some t ∧ f t 1 = some r1 ∧
      ∃ r2, f t 2 = some r2 ∧ isMatch r1 r2 = true := by
  induction tokens with
  | nil => intro pos q t r1 h; simp [runLoop_nil] at h
  | cons tk rest ih =>
    intro pos q t r1 h
    cases h1 : f tk 1 with
    | none =>
      rw [runLoop_cons_fail1 f tk rest pos h1] at h
      obtain ⟨i, hq, hget, h1', r2, h2', hm'⟩ := ih (pos + 1) q t r1 h
      exact ⟨i + 1, by omega, by simpa using hget, h1', r2, h2', hm'⟩
    | some r1' =>
      cases h2 : f tk 2 with
      | none =>
        rw [runLoop_cons_fail2 f tk rest pos r1' h1 h2] at h
        obtain ⟨i, hq, hget, h1', r2, h2', hm'⟩ := ih (pos + 1) q t r1 h
        exact ⟨i + 1, by omega, by simpa using hget, h1', r2, h2', hm'⟩
      | some r2' =>
        cases hm : isMatch r1' r2' with
        | false =>
          rw [runLoop_cons_nomatch f tk rest pos r1' r2' h1 h2 hm] at h
          obtain ⟨i, hq, hget, h1', r2, h2', hm'⟩ := ih (pos + 1) q t r1 h
          exact ⟨i + 1, by omega, by simpa using hget, h1', r2, h2', hm'⟩
        | true =>
          rw [runLoop_cons_match f tk rest pos r1' r2' h1 h2 hm] at h
          simp only [LoopOutcome.matchFound.injEq] at h
          obtain ⟨hq, ht, hr⟩ := h
          subst hq; subst ht; subst hr
          exact ⟨0, by omega, by simp, h1, r2', h2, hm⟩

/-- If the loop stopped with a match at position `q`, every recorded call
concerns a position at or before `q`: no later token was ever
submitted. -/
lemma loop_calls_le (f : String → Nat → Option LookupResult)
    (tokens : List String) : ∀ (pos q : Nat) (t : String) (r1 : LookupResult),
    (runLoop f tokens pos).outcome = .matchFound q t r1 →
    ∀ (p a : Nat) (u : String),
      (p, u, a) ∈ (runLoop f tokens pos).calls → p ≤ q := by
  induction tokens with
  | nil => intro pos q t r1 h; simp [runLoop_nil] at h
  | cons tk rest ih =>
    intro pos q t r1 h p a u hmem
    cases h1 : f tk 1 with
    | none =>
      rw [runLoop_cons_fail1 f tk rest pos h1] at h hmem
      obtain ⟨i, hq, -⟩ := loop_match_sound f rest (pos + 1) q t r1 h
      simp only [List.mem_cons, Prod.mk.injEq] at hmem
      rcases hmem with ⟨hp, -⟩ | hmem
      · omega
      · exact ih (pos + 1) q t r1 h p a u hmem
    | some r1' =>
      cases h2 : f tk 2 with
      | none =>
        rw [runLoop_cons_fail2 f tk rest pos r1' h1 h2] at h hmem
        obtain ⟨i, hq, -⟩ := loop_match_sound f rest (pos + 1) q t r1 h
        simp only [List.mem_cons, Prod.mk.injEq] at hmem
        rcases hmem with ⟨hp, -⟩ | ⟨hp, -⟩ | hmem
        · omega
        · omega
        · exact ih (pos + 1) q t r1 h p a u hmem
      | some r2' =>
        cases hm : isMatch r1' r2' with
        | false =>
          rw [runLoop_cons_nomatch f tk rest pos r1' r2' h1 h2 hm] at h hmem
          obtain ⟨i, hq, -⟩ := loop_match_sound f rest (pos + 1) q t r1 h
          simp only [List.mem_cons, Prod.mk.injEq] at hmem
          rcases hmem with ⟨hp, -⟩ | ⟨hp, -⟩ | hmem
          · omega
          · omega
          · exact ih (pos + 1) q t r1 h p a u hmem
        | true =>
          rw [runLoop_cons_match f tk rest pos r1' r2' h1 h2 hm] at h hmem
          simp only [LoopOutcome.matchFound.injEq] at h
          obtain ⟨hq, -, -⟩ := h
          simp only [List.mem_cons, List.not_mem_nil, or_false,
            Prod.mk.injEq] at hmem
          rcases hmem with ⟨hp, -⟩ | ⟨hp, -⟩ <;> omega

/-- If no token of the remaining list matches, the loop runs to natural
exhaustion. -/
lemma loop_exhausted_of_noMatch (f : String → Nat → Option LookupResult)
    (tokens : List String) : ∀ pos : Nat,
    (∀ t ∈ tokens, matchesF f t = false) →
    (runLoop f tokens pos).outcome = .exhausted := by
  induction tokens with
  | nil => intro pos _; rfl
  | cons tk rest ih =>
    intro pos hall
    have hmk : matchesF f tk = false := hall tk (List.mem_cons_self tk rest)
    have hrest : ∀ t ∈ rest, matchesF f t = false :=
      fun t ht => hall t (List.mem_cons_of_mem _ ht)
    cases h1 : f tk 1 with
    | none =>
      rw [runLoop_cons_fail1 f tk rest pos h1]
      exact ih (pos + 1) hrest
    | some r1 =>
      cases h2 : f tk 2 with
      | none =>
        rw [runLoop_cons_fail2 f tk rest pos r1 h1 h2]
        exact ih (pos + 1) hrest
      | some r2 =>
        have hm : isMatch r1 r2 = false :=
          ((matchesF_of_results f tk r1 r2 h1 h2).symm.trans hmk)
        rw [runLoop_cons_nomatch f tk rest pos r1 r2 h1 h2 hm]
        exact ih (pos + 1) hrest

/-- When no token matches, the loop iterates over the whole list. -/
lemma procPrefix_eq_self (f : String → Nat → Option LookupResult)
    (tokens : List String) :
    (∀ t ∈ tokens, matchesF f t = false) → procPrefix f tokens = tokens := by
  induction tokens with
  | nil => intro _; rfl
  | cons tk rest ih =>
    intro h
    rw [procPrefix_cons_pos f tk rest (h tk (List.mem_cons_self tk rest)),
      ih (fun t ht => h t (List.mem_cons_of_mem _ ht))]

/-- Every recorded call is at the position of its token, and all tokens
at earlier positions were non-matching (the loop reached this token). -/
lemma loop_calls_sound (f : String → Nat → Option LookupResult)
    (tokens : List String) : ∀ (pos q a : Nat) (u : String),
    (q, u, a) ∈ (runLoop f tokens pos).calls →
    ∃ i, q = pos + i ∧ tokens[i]? = some u ∧
      ∀ (j : Nat) (w : String), j < i → tokens[j]? = some w →
        matchesF f w = false := by
  induction tokens with
  | nil => intro pos q a u h; simp [runLoop_nil] at h
  | cons tk rest ih =>
    intro pos q a u h
    have headCase : ∀ (hq : q = pos) (hu : u = tk),
        ∃ i, q = pos + i ∧ (tk :: rest)[i]? = some u ∧
          ∀ (j : Nat) (w : String), j < i → (tk :: rest)[j]? = some w →
            matchesF f w = false := by
      intro hq hu
      refine ⟨0, by omega, by simp [hu], ?_⟩
      intro j w hj
      exact absurd hj (Nat.not_lt_zero j)
    have tailCase : matchesF f tk = false →
        (q, u, a) ∈ (runLoop f rest (pos + 1)).calls →
        ∃ i, q = pos + i ∧ (tk :: rest)[i]? = some u ∧
          ∀ (j : Nat) (w : String), j < i → (tk :: rest)[j]? = some w →
            matchesF f w = false := by
      intro hmk hmem
      obtain ⟨i, hqi, hget, hpre⟩ := ih (pos + 1) q a u hmem
      refine ⟨i + 1, by omega, by simpa using hget, ?_⟩
      intro j w hj hw
      cases j with
      | zero =>
        simp only [List.getElem?_cons_zero, Option.some.injEq] at hw
        rw [← hw]; exact hmk
      | succ j' =>
        exact hpre j' w (by omega) (by simpa using hw)
    cases h1 : f tk 1 with
    | none =>
      rw [runLoop_cons_fail1 f tk rest pos h1] at h
      simp only [List.mem_cons, Prod.mk.injEq] at h
      rcases h with ⟨hq, hu, -⟩ | h
      · exact headCase hq hu
      · exact tailCase (matchesF_of_fail1 f tk h1) h
    | some r1 =>
      cases h2 : f tk 2 with
      | none =>
        rw [runLoop_cons_fail2 f tk rest pos r1 h1 h2] at h
        simp only [List.mem_cons, Prod.mk.injEq] at h
        rcases h with ⟨hq, hu, -⟩ | ⟨hq, hu, -⟩ | h
        · exact headCase hq hu
        · exact headCase hq hu
        · exact tailCase (matchesF_of_fail2 f tk r1 h1 h2) h
      | some r2 =>
        cases hm : isMatch r1 r2 with
        | false =>
          rw [runLoop_cons_nomatch f tk rest pos r1 r2 h1 h2 hm] at h
          simp only [List.mem_cons, Prod.mk.injEq] at h
          rcases h with ⟨hq, hu, -⟩ | ⟨hq, hu, -⟩ | h
          · exact headCase hq hu
          · exact headCase hq hu
          · exact tailCase
              ((matchesF_of_results f tk r1 r2 h1 h2).trans hm) h
        | true =>
          rw [runLoop_cons_match f tk rest pos r1 r2 h1 h2 hm] at h
          simp only [List.mem_cons, List.not_mem_nil, or_false,
            Prod.mk.injEq] at h
          rcases h with ⟨hq, hu, -⟩ | ⟨hq, hu, -⟩
          · exact headCase hq hu
          · exact headCase hq hu

/-- Conversely, any token preceded only by non-matching tokens is reached
and submitted (its first attempt is recorded). -/
lemma loop_calls_covered (f : String → Nat → Option LookupResult)
    (tokens : List String) : ∀ (pos i : Nat) (v : String),
    tokens[i]? = some v →
    (∀ (j : Nat) (w : String), j < i → tokens[j]? = some w →
      matchesF f w = false) →
    (pos + i, v, 1) ∈ (runLoop f tokens pos).calls := by
  induction tokens with
  | nil => intro pos i v hget _; simp at hget
  | cons tk rest ih =>
    intro pos i v hget hpre
    cases i with
    | zero =>
      simp only [List.getElem?_cons_zero, Option.some.injEq] at hget
      subst hget
      cases h1 : f tk 1 with
      | none =>
        rw [runLoop_cons_fail1 f tk rest pos h1]
        simp
      | some r1 =>
        cases h2 : f tk 2 with
        | none =>
          rw [runLoop_cons_fail2 f tk rest pos r1 h1 h2]
          simp
        | some r2 =>
          cases hm : isMatch r1 r2 with
          | false =>
            rw [runLoop_cons_nomatch f tk rest pos r1 r2 h1 h2 hm]
            simp
          | true =>
            rw [runLoop_cons_match f tk rest pos r1 r2 h1 h2 hm]
            simp
    | succ i' =>
      have hmk : matchesF f tk = false := hpre 0 tk (Nat.succ_pos i') (by simp)
      have hget' : rest[i']? = some v := by simpa using hget
      have hpre' : ∀ (j : Nat) (w : String), j < i' → rest[j]? = some w →
          matchesF f w = false :=
        fun j w hj hw => hpre (j + 1) w (by omega) (by simpa using hw)
      have hrec := ih (pos + 1) i' v hget' hpre'
      have harith : pos + (i' + 1) = pos + 1 + i' := by omega
      rw [harith]
      cases h1 : f tk 1 with
      | none =>
        rw [runLoop_cons_fail1 f tk rest pos h1]
        exact List.mem_cons_of_mem _ hrec
      | some r1 =>
        cases h2 : f tk 2 with
        | none =>
          rw [runLoop_cons_fail2 f tk rest pos r1 h1 h2]
          exact List.mem_cons_of_mem _ (List.mem_cons_of_mem _ hrec)
        | some r2 =>
          cases hm : isMatch r1 r2 with
          | false =>
            rw [runLoop_cons_nomatch f tk rest pos r1 r2 h1 h2 hm]
            exact List.mem_cons_of_mem _ (List.mem_cons_of_mem _ hrec)
          | true =>
            rw [(matchesF_of_results f tk r1 r2 h1 h2).symm.trans hmk] at hm
            cases hm

/-! ## Bridging `main` to the loop -/

lemma runMain_error (f : String → Nat → Option LookupResult) (e : String) :
    runMain (.error e) f = ⟨.fatalError e, 0, [], [], [], true, 0⟩ := rfl

lemma runMain_ok_nil (f : String → Nat → Option LookupResult) :
    runMain (.ok []) f = ⟨.noChecksums, 0, [], [], [], true, 0⟩ := rfl

lemma runMain_ok_fields (f : String → Nat → Option LookupResult)
    (tokens : List String) :
    (runMain (.ok tokens) f).processed = (runLoop f tokens 0).processed ∧
    (runMain (.ok tokens) f).sink = (runLoop f tokens 0).sink ∧
    (runMain (.ok tokens) f).calls = (runLoop f tokens 0).calls ∧
    (runMain (.ok tokens) f).errLog = (runLoop f tokens 0).errLog := by
  cases tokens with
  | nil => simp [runMain, runLoop_nil]
  | cons t rest =>
    simp only [runMain]
    rw [if_neg (by simp)]
    cases hout : (runLoop f (t :: rest) 0).outcome with
    | matchFound p u r => simp [hout]
    | exhausted => simp [hout]

lemma runMain_outcome_matched (f : String → Nat → Option LookupResult)
    (tokens : List String) (q : Nat) (t : String) (r1 : LookupResult) :
    (runMain (.ok tokens) f).outcome = .matched q t r1 ↔
    (runLoop f tokens 0).outcome = .matchFound q t r1 := by
  cases tokens with
  | nil => simp [runMain, runLoop_nil]
  | cons tk rest =>
    simp only [runMain]
    rw [if_neg (by simp)]
    cases hout : (runLoop f (tk :: rest) 0).outcome with
    | matchFound p u r => simp [hout]
    | exhausted => simp [hout]

lemma runMain_outcome_exhausted (f : String → Nat → Option LookupResult)
    (tokens : List String) (h : tokens ≠ []) :
    ((runMain (.ok tokens) f).outcome = .exhausted ↔
      (runLoop f tokens 0).outcome = .exhausted) := by
  cases tokens with
  | nil => exact absurd rfl h
  | cons tk rest =>
    simp only [runMain]
    rw [if_neg (by simp)]
    cases hout : (runLoop f (tk :: rest) 0).outcome with
    | matchFound p u r => simp [hout]
    | exhausted => simp [hout]

lemma runMain_sinkCloses (f : String → Nat → Option LookupResult)
    (pr : Except String (List String)) :
    (runMain pr f).sinkCloses =
      (match (runMain pr f).outcome with
        | .matched _ _ _ => 1
        | .exhausted => 1
        | .fatalError _ => 0
        | .noChecksums => 0) := by
  cases pr with
  | error e => rfl
  | ok tokens =>
    cases tokens with
    | nil => rfl
    | cons t rest =>
      simp only [runMain]
      rw [if_neg (by simp)]
      cases hout : (runLoop f (t :: rest) 0).outcome with
      | matchFound p u r => simp [hout]
      | exhausted => simp [hout]

/-! ## Decision lemmas -/

lemma isMatch_iff (r1 r2 : LookupResult) :
    isMatch r1 r2 = true ↔
      jsTruthy r1.key = true ∧ jsTruthy r2.key = true ∧ r1.key = r2.key := by
  simp [isMatch, jsStrictEq, and_assoc]

lemma decideMatch_some_some (r1 r2 : LookupResult) :
    (decideMatch (some r1) (some r2) = .matchHit ↔ isMatch r1 r2 = true) := by
  simp only [decideMatch]
  by_cases hm : isMatch r1 r2 = true
  · simp [hm]
  · simp [hm]

/-! ## Concrete fixtures for witnesses and counterexamples -/

/-- A successful response whose `key` is the string `"K"`. -/
def rKey : LookupResult := ⟨some (.vStr "K"), ""⟩

/-- A successful response whose `key` is the string `"x"`. -/
def rKeyX : LookupResult := ⟨some (.vStr "x"), ""⟩

/-- A successful response whose `key` is the string `"y"`. -/
def rKeyY : LookupResult := ⟨some (.vStr "y"), ""⟩

/-- A successful response whose `key` is the JSON number `1`: truthy,
strictly equal to itself, but not a string. -/
def rNumKey : LookupResult := ⟨some (.vNum 1), ""⟩

/-- A responder answering every attempt with `rKey`. -/
def fKey : String → Nat → Option LookupResult := fun _ _ => some rKey

/-- A responder for which every submission fails. -/
def fFail : String → Nat → Option LookupResult := fun _ _ => none

/-- A responder whose first attempt succeeds and whose second fails. -/
def fSecondFail : String → Nat → Option LookupResult :=
  fun _ a => if a = 1 then some rKey else none

/-- A responder answering with different keys on the two attempts, so
that no token ever matches while every submission succeeds. -/
def fDiffer : String → Nat → Option LookupResult :=
  fun _ a => if a = 1 then some rKeyX else some rKeyY

/-! ## Claims -/

/-- **C1** (counterexample).  The claim says the decision is `Match` *iff*
both submissions succeeded, both results carry a non-empty *string* `key`,
and the keys are equal as strings, any non-string `key` counting as
"no key" and yielding `NoMatch`.  The code's test
`response1.key && response2.key && response1.key === response2.key`
(line 73) instead uses JavaScript truthiness: two successful responses
whose `key` is the JSON number `1` — truthy and strictly equal, but not a
string — are decided as a match, where the claim requires `NoMatch`. -/
theorem c1_counterexample :
    decideMatch (some rNumKey) (some rNumKey) = .matchHit ∧
    ¬ specMatchClaim (some rNumKey) (some rNumKey) := by
  constructor
  · rfl
  · rintro ⟨r1, r2, hr1, hr2, s1, s2, hk1, hk2, -, -, -⟩
    obtain rfl : rNumKey = r1 := by injection hr1
    simp [rNumKey] at hk1

/-- **C1** (amended).  The decision is `Match` iff both submissions
succeeded and both results' `key` values are truthy (JavaScript
truthiness) and strictly equal; restricted to string-valued keys this is
exactly the claimed rule: both keys non-empty strings that are equal
under exact string equality. -/
theorem c1_amended (o1 o2 : Option LookupResult) :
    (decideMatch o1 o2 = .matchHit ↔
      ∃ r1 r2, o1 = some r1 ∧ o2 = some r2 ∧
        jsTruthy r1.key = true ∧ jsTruthy r2.key = true ∧
        r1.key = r2.key) ∧
    (∀ (r1 r2 : LookupResult) (s1 s2 : String),
      o1 = some r1 → o2 = some r2 →
      r1.key = some (.vStr s1) → r2.key = some (.vStr s2) →
      (decideMatch o1 o2 = .matchHit ↔ s1 ≠ "" ∧ s1 = s2)) := by
  constructor
  · cases o1 with
    | none => simp [decideMatch]
    | some r1 =>
      cases o2 with
      | none => simp [decideMatch]
      | some r2 =>
        rw [decideMatch_some_some, isMatch_iff]
        constructor
        · rintro ⟨ht1, ht2, hk⟩
          exact ⟨r1, r2, rfl, rfl, ht1, ht2, hk⟩
        · rintro ⟨r1', r2', h1', h2', ht1, ht2, hk⟩
          obtain rfl : r1 = r1' := by injection h1'
          obtain rfl : r2 = r2' := by injection h2'
          exact ⟨ht1, ht2, hk⟩
  · rintro r1 r2 s1 s2 rfl rfl hk1 hk2
    rw [decideMatch_some_some, isMatch_iff, hk1, hk2]
    simp only [jsTruthy, bne_iff_ne, ne_eq, decide_eq_true_eq,
      Option.some.injEq, JsVal.vStr.injEq]
    constructor
    · rintro ⟨h1, -, h3⟩
      exact ⟨h1, h3⟩
    · rintro ⟨h1, h3⟩
      exact ⟨h1, h3 ▸ h1, h3⟩

/-- **C1** (witness for the amended statement): on string keys the rule
coincides with the claimed one, here at key `"K"` on both sides. -/
theorem c1_amended_witness :
    decideMatch (some rKey) (some rKey) = .matchHit :=
  ((c1_amended (some rKey) (some rKey)).2 rKey rKey "K" "K"
    rfl rfl rfl rfl).mpr ⟨by decide, rfl⟩

/-- **C4** (counterexample).  The claim says a line yields a token exactly
when splitting on commas gives exactly two non-empty parts with the
second field non-empty *after trimming*, and that every other line yields
no token.  The code (line 160) checks `parts[1]` for emptiness *before*
trimming and never checks `parts[0]`: the line `"a, "` (second field one
space) yields the empty token `""`, and the line `",b"` (empty first
field) yields `"b"`, though the claim says both lines yield no token. -/
theorem c4_counterexample :
    parseChecksumFile ["a, "] = [""] ∧
    jsTrim ((jsSplitComma "a, ")[1]!) = "" ∧
    lineTokensSpec "a, " = [] ∧
    parseChecksumFile [",b"] = ["b"] ∧
    (jsSplitComma ",b")[0]! = "" ∧
    lineTokensSpec ",b" = [] := by
  refine ⟨?_, ?_, ?_, ?_, ?_, ?_⟩ <;> decide

/-- **C4** (amended).  A line yields a token exactly when splitting it on
commas gives exactly two parts with the second part non-empty *before*
trimming (the first part may be empty); the yielded token is the trimmed
second field — possibly the empty string when the field is all
whitespace — and tokens appear in file order; every other line (0, 1, or
≥3 fields, or empty second field) yields no token. -/
theorem c4_amended (lines : List String) :
    parseChecksumFile lines = lines.flatMap lineTokens ∧
    (∀ (line a b : String), jsSplitComma line = [a, b] → b ≠ "" →
      lineTokens line = [jsTrim b]) ∧
    (∀ (line a b : String), jsSplitComma line = [a, b] → b = "" →
      lineTokens line = []) ∧
    (∀ line : String, (jsSplitComma line).length ≠ 2 →
      lineTokens line = []) := by
  refine ⟨?_, ?_, ?_, ?_⟩
  · have go : ∀ (ls : List String) (acc : List String),
        ls.foldl
          (fun acc line =>
            let parts := jsSplitComma line
            if parts.length = 2 && parts[1]! != "" then
              acc ++ [jsTrim parts[1]!]
            else acc)
          acc = acc ++ ls.flatMap lineTokens := by
      intro ls
      induction ls with
      | nil => intro acc; simp
      | cons l rest ih =>
        intro acc
        simp only [List.foldl_cons, List.flatMap_cons, ih, lineTokens]
        by_cases hc :
            ((jsSplitComma l).length = 2 && (jsSplitComma l)[1]! != "") = true
        · simp [hc, List.append_assoc]
        · simp only [Bool.not_eq_true] at hc
          simp [hc]
    exact go lines []
  · intro line a b hsplit hb
    simp [lineTokens, hsplit, hb]
  · intro line a b hsplit hb
    simp [lineTokens, hsplit, hb]
  · intro line hlen
    simp [lineTokens, hlen]

/-- **C4** (witness for the amended statement) on the two-line file
`["x.txt,AAA", "junk"]`: the qualifying line contributes its second
field, the one-field line contributes nothing. -/
theorem c4_amended_witness :
    parseChecksumFile ["x.txt,AAA", "junk"] =
      ["x.txt,AAA", "junk"].flatMap lineTokens ∧
    lineTokens "x.txt,AAA" = [jsTrim "AAA"] ∧
    lineTokens "junk" = [] :=
  ⟨(c4_amended ["x.txt,AAA", "junk"]).1,
    (c4_amended []).2.1 "x.txt,AAA" "x.txt" "AAA" (by decide) (by decide),
    (c4_amended []).2.2.2 "junk" (by decide)⟩

/-- **C2**.  For every token in the sequence, if the first lookup fails,
the second lookup for that token is never invoked (every recorded second
attempt had a successful first attempt), the token is appended to the
Failure Sink, each iterated token occurrence is counted exactly once
toward the processed count, and the loop moves on: the next position is
also submitted. -/
theorem c2_short_circuit (f : String → Nat → Option LookupResult)
    (tokens : List String) :
    (∀ (p : Nat) (u : String),
      (p, u, 2) ∈ (runMain (.ok tokens) f).calls → (f u 1).isSome = true) ∧
    (∀ (p : Nat) (u : String),
      (p, u, 1) ∈ (runMain (.ok tokens) f).calls → f u 1 = none →
        u ∈ (runMain (.ok tokens) f).sink) ∧
    (runMain (.ok tokens) f).processed = (procPrefix f tokens).length ∧
    (∀ (p : Nat) (u v : String),
      (p, u, 1) ∈ (runMain (.ok tokens) f).calls → f u 1 = none →
      tokens[p + 1]? = some v →
        (p + 1, v, 1) ∈ (runMain (.ok tokens) f).calls) := by
  obtain ⟨hproc, hsink, hcalls, -⟩ := runMain_ok_fields f tokens
  rw [hproc, hsink, hcalls]
  refine ⟨?_, ?_, ?_, ?_⟩
  · intro p u hmem
    exact loop_att2 f tokens 0 p u hmem
  · intro p u hmem hf
    exact loop_fail_mem_sink f tokens 0 p 1 u hmem hf
  · exact loop_processed f tokens 0
  · intro p u v hmem hf hnext
    obtain ⟨i, hpi, hget, hpre⟩ := loop_calls_sound f tokens 0 p 1 u hmem
    have hi : i = p := by omega
    rw [hi] at hget hpre
    have hpre2 : ∀ (j : Nat) (w : String), j < p + 1 → tokens[j]? = some w →
        matchesF f w = false := by
      intro j w hj hw
      rcases Nat.lt_or_ge j p with hlt | hge
      · exact hpre j w hlt hw
      · have hjp : j = p := by omega
        subst hjp
        rw [hget] at hw
        obtain rfl : u = w := by injection hw
        exact matchesF_of_fail1 f u hf
    have hcov := loop_calls_covered f tokens 0 (p + 1) v hnext hpre2
    simpa using hcov

/-- **C2** (witness): with every submission failing and the single token
`"A"`, the first attempt is recorded failing and `"A"` reaches the
Failure Sink. -/
theorem c2_short_circuit_witness :
    "A" ∈ (runMain (.ok ["A"]) fFail).sink :=
  (c2_short_circuit fFail ["A"]).2.1 0 "A" (by decide) rfl

/-- **C3**.  If the run ends matched at position `q` with token `t` and
payload `r1`, then `t` is the token at position `q` of the sequence,
`r1` is the first lookup's response for `t` (the representative payload),
the second lookup also succeeded with a matching response, and every
call of the whole run is at a position ≤ `q`: no token after `t` was
ever submitted. -/
theorem c3_early_termination (f : String → Nat → Option LookupResult)
    (tokens : List String) (q : Nat) (t : String) (r1 : LookupResult)
    (h : (runMain (.ok tokens) f).outcome = .matched q t r1) :
    tokens[q]? = some t ∧ f t 1 = some r1 ∧
    (∃ r2, f t 2 = some r2 ∧ isMatch r1 r2 = true) ∧
    (∀ (p a : Nat) (u : String),
      (p, u, a) ∈ (runMain (.ok tokens) f).calls → p ≤ q) := by
  have hl : (runLoop f tokens 0).outcome = .matchFound q t r1 :=
    (runMain_outcome_matched f tokens q t r1).mp h
  obtain ⟨i, hq, hget, h1, r2, h2, hm⟩ := loop_match_sound f tokens 0 q t r1 hl
  have hi : i = q := by omega
  rw [hi] at hget
  obtain ⟨-, -, hcalls, -⟩ := runMain_ok_fields f tokens
  rw [hcalls]
  exact ⟨hget, h1, ⟨r2, h2, hm⟩,
    fun p a u hmem => loop_calls_le f tokens 0 q t r1 hl p a u hmem⟩

/-- **C3** (witness): with a client always answering key `"K"` and tokens
`["A", "B"]`, the run matches at position 0 and no call concerns a later
position. -/
theorem c3_early_termination_witness :
    (["A", "B"])[0]? = some "A" ∧ fKey "A" 1 = some rKey ∧
    (∃ r2, fKey "A" 2 = some r2 ∧ isMatch rKey r2 = true) ∧
    (∀ (p a : Nat) (u : String),
      (p, u, a) ∈ (runMain (.ok ["A", "B"]) fKey).calls → p ≤ 0) :=
  c3_early_termination fKey ["A", "B"] 0 "A" rKey (by decide)

/-- **C5**.  Every token one of whose recorded attempts failed is in the
Failure Sink; the sink consists exactly of the iterated failing token
occurrences, in order and with multiplicity (so each failing occurrence
is appended exactly once); a token whose two lookups both succeed is
never appended; and each iterated occurrence counts exactly once toward
the processed total. -/
theorem c5_failure_accounting (f : String → Nat → Option LookupResult)
    (tokens : List String) :
    (∀ (p a : Nat) (u : String),
      (p, u, a) ∈ (runMain (.ok tokens) f).calls → f u a = none →
        u ∈ (runMain (.ok tokens) f).sink) ∧
    (runMain (.ok tokens) f).sink =
      (procPrefix f tokens).filter (failsF f) ∧
    (∀ u : String, (f u 1).isSome = true → (f u 2).isSome = true →
      u ∉ (runMain (.ok tokens) f).sink) ∧
    (runMain (.ok tokens) f).processed = (procPrefix f tokens).length := by
  obtain ⟨hproc, hsink, hcalls, -⟩ := runMain_ok_fields f tokens
  rw [hproc, hsink, hcalls]
  refine ⟨?_, ?_, ?_, ?_⟩
  · intro p a u hmem hf
    exact loop_fail_mem_sink f tokens 0 p a u hmem hf
  · exact loop_sink f tokens 0
  · intro u h1 h2 hmem
    rw [loop_sink f tokens 0] at hmem
    have hfail := List.of_mem_filter hmem
    cases hc1 : f u 1 with
    | none => rw [hc1] at h1; simp at h1
    | some r1 =>
      cases hc2 : f u 2 with
      | none => rw [hc2] at h2; simp at h2
      | some r2 => simp [failsF, hc1, hc2] at hfail
  · exact loop_processed f tokens 0

/-- **C5** (witness): with a client whose second attempt always fails and
the single token `"B"`, the second attempt is recorded failing and `"B"`
reaches the Failure Sink. -/
theorem c5_failure_accounting_witness :
    "B" ∈ (runMain (.ok ["B"]) fSecondFail).sink :=
  (c5_failure_accounting fSecondFail ["B"]).1 0 2 "B" (by decide) rfl

/-- **C6**.  If the (non-empty) sequence is processed without any match —
every token either fails a lookup or yields non-matching results — the
outcome is `exhausted` and the processed count equals the total number of
tokens; when additionally every lookup succeeds, the Failure Sink
receives no appends. -/
theorem c6_exhaustion (f : String → Nat → Option LookupResult)
    (tokens : List String) (hne : tokens ≠ [])
    (hnm : ∀ t ∈ tokens, matchesF f t = false) :
    (runMain (.ok tokens) f).outcome = .exhausted ∧
    (runMain (.ok tokens) f).processed = tokens.length ∧
    ((∀ t ∈ tokens, (f t 1).isSome = true ∧ (f t 2).isSome = true) →
      (runMain (.ok tokens) f).sink = []) := by
  obtain ⟨hproc, hsink, -, -⟩ := runMain_ok_fields f tokens
  refine ⟨?_, ?_, ?_⟩
  · exact (runMain_outcome_exhausted f tokens hne).mpr
      (loop_exhausted_of_noMatch f tokens 0 hnm)
  · rw [hproc, loop_processed f tokens 0, procPrefix_eq_self f tokens hnm]
  · intro hall
    rw [hsink, loop_sink f tokens 0, procPrefix_eq_self f tokens hnm]
    apply List.filter_eq_nil_iff.mpr
    intro u hu
    obtain ⟨h1, h2⟩ := hall u hu
    cases hc1 : f u 1 with
    | none => rw [hc1] at h1; simp at h1
    | some r1 =>
      cases hc2 : f u 2 with
      | none => rw [hc2] at h2; simp at h2
      | some r2 => simp [failsF, hc1, hc2]

/-- **C6** (witness): a client answering different keys on the two
attempts never matches and never fails, so a one-token run exhausts with
processed count 1 and an empty sink. -/
theorem c6_exhaustion_witness :
    (runMain (.ok ["A"]) fDiffer).outcome = .exhausted ∧
    (runMain (.ok ["A"]) fDiffer).processed = (["A"] : List String).length ∧
    (runMain (.ok ["A"]) fDiffer).sink = [] := by
  obtain ⟨h1, h2, h3⟩ := c6_exhaustion fDiffer ["A"] (by simp) (by decide)
  exact ⟨h1, h2, h3 (by decide)⟩

lemma runMain_sinkOpened (f : String → Nat → Option LookupResult)
    (pr : Except String (List String)) :
    (runMain pr f).sinkOpened = true := by
  cases pr with
  | error e => rfl
  | ok tokens =>
    cases tokens with
    | nil => rfl
    | cons t rest =>
      simp only [runMain]
      rw [if_neg (by simp)]
      cases hout : (runLoop f (t :: rest) 0).outcome with
      | matchFound p u r => simp [hout]
      | exhausted => simp [hout]

/-- **C7** (counterexample).  The claim also asserts that a run aborting
on a missing input file creates and writes no file.  `main` creates the
failure stream with `fs.createWriteStream(..., { flags: "a" })` at line
25 — opening `failed.txt` and creating it if absent — *before*
`parseChecksumFile` checks at line 147 that the input file exists, so
even the aborting run has opened (and possibly created) the failure-sink
file. -/
theorem c7_counterexample :
    (runMain (.error "File not found: missing.txt") fFail).outcome =
      .fatalError "File not found: missing.txt" ∧
    (runMain (.error "File not found: missing.txt") fFail).sinkOpened =
      true := ⟨rfl, rfl⟩

/-- **C7** (amended).  When the input file does not exist, the run fails
with the fatal precondition error surfaced to the operator before any
processing: no lookup is issued, nothing is written to the failure sink,
nothing is counted as processed, and the sink is not closed — but the
failure-sink file itself is opened (in append mode, creating it if
absent) at startup, before the input file's existence check. -/
theorem c7_missing_file (f : String → Nat → Option LookupResult)
    (e : String) :
    (runMain (.error e) f).outcome = .fatalError e ∧
    (runMain (.error e) f).calls = [] ∧
    (runMain (.error e) f).sink = [] ∧
    (runMain (.error e) f).processed = 0 ∧
    (runMain (.error e) f).sinkCloses = 0 ∧
    (runMain (.error e) f).sinkOpened = true :=
  ⟨rfl, rfl, rfl, rfl, rfl, rfl⟩

/-- **C8** (counterexample).  The claim says the Failure Sink is closed
exactly once on *every* exit path, the fatal-error path included.  On the
fatal path the `.catch` at lines 186-188 only prints the error and
`failedStream.end()` is never reached, so the sink opened at line 25 is
closed zero times; the same happens on the zero-checksums early return of
lines 36-39. -/
theorem c8_counterexample :
    (runMain (.error "File not found: report.txt") fKey).sinkCloses = 0 ∧
    (runMain (.ok ([] : List String)) fKey).sinkCloses = 0 ∧
    (runMain (.error "File not found: report.txt") fKey).sinkOpened =
      true := ⟨rfl, rfl, rfl⟩

/-- **C8** (amended).  The Failure Sink is opened on every path and
closed exactly once on the match and exhaustion exit paths (lines 82 and
95); on the fatal-error path and on the zero-checksums early return it is
never closed. -/
theorem c8_sink_closes (pr : Except String (List String))
    (f : String → Nat → Option LookupResult) :
    (runMain pr f).sinkOpened = true ∧
    (runMain pr f).sinkCloses =
      (match (runMain pr f).outcome with
        | .matched _ _ _ => 1
        | .exhausted => 1
        | .fatalError _ => 0
        | .noChecksums => 0) :=
  ⟨runMain_sinkOpened f pr, runMain_sinkCloses f pr⟩

/-- **C9** (counterexample).  The claim speaks of a token "whose two
lookups both fail" being "logged once per failing side", producing "up to
two log lines ... one per failed attempt".  With a client for which every
submission fails — so both lookups for `"A"` would fail — the run makes
only the first attempt (the first failure skips the second lookup,
line 59), emits exactly one diagnostic line rather than one per failing
side, and still counts the token processed once: the two-line,
both-attempts-fail scenario can never occur within one token. -/
theorem c9_counterexample :
    fFail "A" 1 = none ∧ fFail "A" 2 = none ∧
    (runMain (.ok ["A"]) fFail).errLog = [(0, "A", 1)] ∧
    (0, "A", 2) ∉ (runMain (.ok ["A"]) fFail).calls ∧
    (runMain (.ok ["A"]) fFail).processed = 1 := by
  refine ⟨?_, ?_, ?_, ?_, ?_⟩ <;> decide

/-- **C9** (amended).  The diagnostic log is per-attempt, not per-token:
its lines are exactly the failing attempts of the call trace, in order,
one line per failed attempt; each iterated token occurrence counts
exactly once toward the processed total; and no token can produce both a
first-attempt and a second-attempt diagnostic line (a first-attempt
failure skips the second lookup), so each occurrence produces at most one
line, never two. -/
theorem c9_per_attempt_log (f : String → Nat → Option LookupResult)
    (tokens : List String) :
    (runMain (.ok tokens) f).errLog =
      (runMain (.ok tokens) f).calls.filter
        (fun c => (f c.2.1 c.2.2).isNone) ∧
    (∀ (p q : Nat) (u : String),
      (p, u, 1) ∈ (runMain (.ok tokens) f).errLog →
      (q, u, 2) ∈ (runMain (.ok tokens) f).errLog → False) ∧
    (runMain (.ok tokens) f).processed = (procPrefix f tokens).length := by
  obtain ⟨hproc, -, hcalls, herr⟩ := runMain_ok_fields f tokens
  rw [hproc, hcalls, herr]
  refine ⟨loop_errLog f tokens 0, ?_, loop_processed f tokens 0⟩
  intro p q u h1 h2
  rw [loop_errLog f tokens 0] at h1 h2
  have m2 := List.mem_of_mem_filter h2
  have s1 := loop_att2 f tokens 0 q u m2
  have f1 : (f u 1).isNone = true := by simpa using List.of_mem_filter h1
  rw [Option.isNone_iff_eq_none] at f1
  rw [f1] at s1
  simp at s1

/-- **C9** (witness for the amended statement): a second-attempt failure
on the single token `"B"` produces exactly the filtered one-line log and
one processed token. -/
theorem c9_per_attempt_log_witness :
    (runMain (.ok ["B"]) fSecondFail).errLog =
      (runMain (.ok ["B"]) fSecondFail).calls.filter
        (fun c => (fSecondFail c.2.1 c.2.2).isNone) ∧
    (runMain (.ok ["B"]) fSecondFail).processed = 1 := by
  obtain ⟨h1, -, h3⟩ := c9_per_attempt_log fSecondFail ["B"]
  refine ⟨h1, ?_⟩
  rw [h3]
  decide

/-- **C10**.  With zero parsed tokens the run reports "No checksums
found" (its outcome is the `noChecksums` early return of lines 36-39, in
particular not an `exhausted` report) and returns before the loop: no
lookup is ever issued, nothing is processed or written, and the Failure
Sink — though opened — is never closed. -/
theorem c10_empty_sequence (f : String → Nat → Option LookupResult) :
    (runMain (.ok []) f).outcome = .noChecksums ∧
    (runMain (.ok []) f).calls = [] ∧
    (runMain (.ok []) f).processed = 0 ∧
    (runMain (.ok []) f).sink = [] ∧
    (runMain (.ok []) f).errLog = [] ∧
    (runMain (.ok []) f).sinkOpened = true ∧
    (runMain (.ok []) f).sinkCloses = 0 :=
  ⟨rfl, rfl, rfl, rfl, rfl, rfl, rfl⟩
